import Mathlib

/-!
# Verification of the latqcdtools statistics / fitting engine

Shallow embedding of the statistical estimators in
`latqcdtools/statistics/statistics.py` (and its older twin `latqcdtools/statistics.py`)
and of the `Fitter` orchestration in `latqcdtools/statistics/fitting.py`,
with theorems settling the specification claims about them.

Conventions of the embedding:
* floating point numbers are modelled as exact rationals `ℚ`;
* a call to `logger.TBError` (fatal, terminates the operation per the spec's
  logging contract) and an uncaught Python exception are both modelled as
  `Except.error` with the message of the source;
* `numpy` reductions (`np.mean`, `np.var`, `np.sum`) are modelled by their
  mathematical definitions on 1-D data; a NaN produced by numpy (zero degrees
  of freedom in `np.var(ddof=1)`) is modelled by an explicit `PyVal.nan` value;
* square roots (`np.sqrt`, `np.std`) are irrational, so the embedding carries
  the *square* of such a quantity wherever the source carries the root; each
  such spot is marked in its doc comment.
-/

namespace LatStat

/-- Sum of a list of rationals; models `np.sum` / the accumulating loops of the source. -/
def listSum (l : List ℚ) : ℚ := l.foldr (fun a b => a + b) 0

/-- `std_mean` from statistics.py: `np.mean(data)` on a 1-D array. -/
def std_mean (data : List ℚ) : ℚ := listSum data / data.length

/-- A Python float that is either an actual (here: rational) value or NaN. -/
inductive PyVal
  | val (q : ℚ)
  | nan
deriving DecidableEq, Repr

/-- `np.var(data, ddof = 1)`: sum of squared deviations from the mean divided by
the degrees of freedom `n - 1`.  When `n - 1 ≤ 0` numpy emits a RuntimeWarning and
returns NaN (it does not raise). -/
def np_var_ddof1 (data : List ℚ) : PyVal :=
  if data.length ≤ 1 then PyVal.nan
  else PyVal.val (listSum (data.map (fun x => (x - std_mean data) ^ 2)) / ((data.length : ℚ) - 1))

/-- `std_var` from statistics.py: the `reduce_tuple` wrapper first indexes `data[0]`
(IndexError on an empty list), then for scalar data returns `np.var(data, ddof = 1)`.
There is no `TBError` call anywhere in its body. -/
def std_var (data : List ℚ) : Except String PyVal :=
  match data with
  | [] => Except.error "IndexError"
  | _ :: _ => Except.ok (np_var_ddof1 data)

/-- `std_dev` from statistics.py: `np.std(data, ddof = 1)`, which is the square root
of `np.var(data, ddof = 1)`.  The embedding returns the *square* of what the source
returns (NaN squared is NaN), since the root is irrational. -/
def std_dev_sq (data : List ℚ) : Except String PyVal :=
  match data with
  | [] => Except.error "IndexError"
  | _ :: _ => Except.ok (np_var_ddof1 data)

/-- The estimator asserted by the claim: the unbiased Bessel-corrected sample
variance with divisor `n - 1`. -/
def besselVar (data : List ℚ) : ℚ :=
  listSum (data.map (fun x => (x - std_mean data) ^ 2)) / ((data.length : ℚ) - 1)

/-- `jackknifeFrom` from statistics.py: `xj = 1/(ndat-1) * (np.sum(x) - x)`,
with a fatal `TBError` for `ndat < 2`. -/
def jackknifeFrom (x : List ℚ) : Except String (List ℚ) :=
  let ndat := x.length
  if ndat < 2 then Except.error "Need n>1."
  else Except.ok (x.map (fun xi => 1 / ((ndat : ℚ) - 1) * (listSum x - xi)))

/-- The value `jackknifeFrom` returns on the non-fatal path. -/
def jackknifePure (x : List ℚ) : List ℚ :=
  x.map (fun xi => 1 / ((x.length : ℚ) - 1) * (listSum x - xi))

/-- The biased autocovariance accumulated in `tauint`'s loop around center `x`:
`c_it = (1/numt) * Σ_{i<numt} (ts[i]-x)*(ts[i+it]-x)` with `numt = ndat - it`. -/
def acovRaw (ts : List ℚ) (x : ℚ) (it : ℕ) : ℚ :=
  let numt := ts.length - it
  listSum ((List.range numt).map
    (fun i => (ts.getD i 0 - x) * (ts.getD (i + it) 0 - x))) / (numt : ℚ)

/-- The autocovariance used by `tauint`/`tauintj`: centered at `xhat` when a true
mean is supplied, otherwise at the sample mean with the finite-sample bias
correction factor `ndat/(ndat-1)` applied (`if xhat is None` in the source). -/
def acov (ts : List ℚ) (xhat : Option ℚ) (it : ℕ) : ℚ :=
  match xhat with
  | some x => acovRaw ts x it
  | none => acovRaw ts (std_mean ts) it * (ts.length : ℚ) / ((ts.length : ℚ) - 1)

/-- The integrated-autocorrelation accumulation of `tauint`:
`acint[0] = 1`, `acint[t] = acint[t-1] + 2*acov[t]/acov[0]`. -/
def acintAt (ts : List ℚ) (xhat : Option ℚ) : ℕ → ℚ
  | 0 => 1
  | t + 1 => acintAt ts xhat t + 2 * acov ts xhat (t + 1) / acov ts xhat 0

/-- `tauint` from statistics.py: fatal `TBError` for `ndat < 2` or `nt ≥ ndat`,
otherwise the list `acint[0..nt]` built by the accumulation `acintAt`. -/
def tauint (nt : ℕ) (ts : List ℚ) (xhat : Option ℚ) : Except String (List ℚ) :=
  let ndat := ts.length
  if ndat < 2 then Except.error "Need ndat>1."
  else if nt ≥ ndat then Except.error "Need nt>ndat."
  else Except.ok ((List.range (nt + 1)).map (acintAt ts xhat))

/-- The per-bin autocovariance of `tauintj`'s inner loop: bin `ibin` averages the
`binsize` products `(ts[i]-x)*(ts[i+it]-x)` for `i` from `ibin*binsize` to
`(ibin+1)*binsize - 1`, with the bias correction factor when `xhat` is `None`
(`useBias = true`). -/
def acorBin (ts : List ℚ) (x : ℚ) (useBias : Bool) (it binsize ibin : ℕ) : ℚ :=
  let s := listSum ((List.range binsize).map
    (fun k => (ts.getD (ibin * binsize + k) 0 - x) * (ts.getD (ibin * binsize + k + it) 0 - x)))
  let c := s / (binsize : ℚ)
  if useBias then c * (ts.length : ℚ) / ((ts.length : ℚ) - 1) else c

/-- The guard of `tauintj`'s lag loop, in the source:
`binsize = int(numt/nbins); itmax = nbins*binsize - binsize; if it >= itmax: TBError`. -/
def spillB (ndat nbins it : ℕ) : Bool :=
  let binsize := (ndat - it) / nbins
  let itmax := nbins * binsize - binsize
  decide (itmax ≤ it)

/-- One iteration of `tauintj`'s lag loop: the guard, then the jackknife of the
`nbins` per-bin autocovariances at separation `it`. -/
def acorjRow (ts : List ℚ) (xhat : Option ℚ) (nbins it : ℕ) : Except String (List ℚ) :=
  let ndat := ts.length
  let binsize := (ndat - it) / nbins
  if spillB ndat nbins it then Except.error "it>=itmax."
  else
    let x := match xhat with | some m => m | none => std_mean ts
    jackknifeFrom ((List.range nbins).map (acorBin ts x xhat.isNone it binsize))

/-- `tauintj`'s accumulation of `acorj` rows over the listed separations (the
`for it in range(nt+1)` loop; the loop raises at the first offending lag). -/
def buildAcorj (ts : List ℚ) (xhat : Option ℚ) (nbins : ℕ) : List ℕ → Except String (List (List ℚ))
  | [] => Except.ok []
  | it :: rest =>
    match acorjRow ts xhat nbins it with
    | Except.error e => Except.error e
    | Except.ok row =>
      match buildAcorj ts xhat nbins rest with
      | Except.error e => Except.error e
      | Except.ok rows => Except.ok (row :: rows)

/-- The non-fatal value of one `acorj` row. -/
def acorjPure (ts : List ℚ) (xhat : Option ℚ) (nbins it : ℕ) : List ℚ :=
  let x := match xhat with | some m => m | none => std_mean ts
  jackknifePure ((List.range nbins).map (acorBin ts x xhat.isNone it ((ts.length - it) / nbins)))

/-- The `acintj` accumulation of `tauintj`: row `0` is `nbins` ones, and
`acintj[it][ibin] = acintj[it-1][ibin] + 2*acorj[it][ibin]/acorj[0][ibin]`. -/
def acintjRowFrom (acorj : List (List ℚ)) (nbins : ℕ) : ℕ → List ℚ
  | 0 => List.replicate nbins 1
  | t + 1 => (List.range nbins).map
      (fun b => (acintjRowFrom acorj nbins t).getD b 0 +
        2 * ((acorj.getD (t + 1) []).getD b 0) / ((acorj.getD 0 []).getD b 0))

/-- `tauintj` from statistics.py: fatal `TBError` for `ndat < 2` or `nbins < 2`;
then the lag loop building `acorj` (fatal `TBError "it>=itmax."` at the first lag
failing the guard), and finally the `acintj` table. -/
def tauintj (nt nbins : ℕ) (ts : List ℚ) (xhat : Option ℚ) : Except String (List (List ℚ)) :=
  if ts.length < 2 then Except.error "Need ndat>1."
  else if nbins < 2 then Except.error "Need nbins>1."
  else
    match buildAcorj ts xhat nbins (List.range (nt + 1)) with
    | Except.error e => Except.error e
    | Except.ok acorj => Except.ok ((List.range (nt + 1)).map (acintjRowFrom acorj nbins))

/-- The condition the claim states for `tauintj`'s fatal error: the requested lag
leaves the last of the `nbins` equal-size blocks of the `ndat - lag` usable pairs
empty. -/
def lastBlockEmpty (ndat nbins nt : ℕ) : Prop := (ndat - nt) / nbins = 0

instance (ndat nbins nt : ℕ) : Decidable (lastBlockEmpty ndat nbins nt) := by
  unfold lastBlockEmpty; infer_instance

/-- `jack_mean_and_err` from statistics.py returns `(mean, err)` with
`err = sqrt((n-1)*np.mean((data-mean)**2))`.  The embedding returns the pair
`(mean, err^2)` since the root is irrational. -/
def jack_mean_and_err_sq (data : List ℚ) : ℚ × ℚ :=
  let mean := std_mean data
  (mean, ((data.length : ℚ) - 1) * std_mean (data.map (fun d => (d - mean) ^ 2)))

/-- The scan state of `getTauInt`'s loop (`lmonoton`, `tau_int`, `tau_inte`,
`tau_intbias`, `itpick`); the error slot carries the square of `tau_inte`
(initial sentinel `-1` as in the source, overwritten at `it = 0`). -/
structure TauScan where
  lmonoton : Bool
  tau_int : ℚ
  tau_inte_sq : ℚ
  tau_intbias : ℚ
  itpick : ℤ
deriving DecidableEq, Repr

/-- One iteration of `getTauInt`'s loop over `it`: while `lmonoton`, pick `it`
unless `acint[it] < tau_int` (the first strict decrease), in which case the scan
stops. -/
def tauStep (acint : List ℚ) (acintj : List (List ℚ)) (nbins : ℕ) (s : TauScan) (it : ℕ) :
    TauScan :=
  if s.lmonoton then
    let row := acintj.getD it []
    let acm := (jack_mean_and_err_sq row).1
    let ace2 := (jack_mean_and_err_sq row).2
    let acbias := ((nbins : ℚ) - 1) * |acint.getD it 0 - acm|
    if ¬ (acint.getD it 0 < s.tau_int) then
      { lmonoton := true, tau_int := acint.getD it 0, tau_inte_sq := ace2,
        tau_intbias := acbias, itpick := (it : ℤ) }
    else
      { s with lmonoton := false }
  else s

/-- The result quadruple of `getTauInt` (`tau_inte` carried squared). -/
structure TauIntResult where
  tau_int : ℚ
  tau_inte_sq : ℚ
  tau_intbias : ℚ
  itpick : ℤ
deriving DecidableEq, Repr

/-- The initial scan state of `getTauInt`'s loop: `lmonoton = True`,
`tau_int = 0.`, `tau_inte = -1` (carried squared, sentinel kept as is),
`tau_intbias = -1`, `itpick = -1`. -/
def tauScanInit : TauScan :=
  { lmonoton := true, tau_int := 0, tau_inte_sq := -1, tau_intbias := -1, itpick := -1 }

/-- `getTauInt` from statistics.py: compute `acint` by `tauint` and `acintj` by
`tauintj` (propagating their fatal errors), then scan the lags `0..tpickMax`
picking the last lag before the first strict decrease of `acint`.  The per-lag
diagnostic file written as a side effect is an external output and not modelled. -/
def getTauInt (ts : List ℚ) (nbins tpickMax : ℕ) : Except String TauIntResult :=
  match tauint tpickMax ts none with
  | Except.error e => Except.error e
  | Except.ok acint =>
    match tauintj tpickMax nbins ts none with
    | Except.error e => Except.error e
    | Except.ok acintj =>
      let s := (List.range (tpickMax + 1)).foldl (tauStep acint acintj nbins) tauScanInit
      Except.ok { tau_int := s.tau_int, tau_inte_sq := s.tau_inte_sq,
                  tau_intbias := s.tau_intbias, itpick := s.itpick }

/-- `firstDec acint m` is the smallest `t < m` with `acint[t+1] < acint[t]` (the
lag just before the first strict decrease of the running estimate), or `none`
when `acint` is non-decreasing on `0..m`. -/
def firstDec (acint : List ℚ) : ℕ → Option ℕ
  | 0 => none
  | m + 1 =>
    match firstDec acint m with
    | some p => some p
    | none => if acint.getD (m + 1) 0 < acint.getD m 0 then some m else none

/-- The pick lag described by the claim: the last lag at which the running
estimate has not yet decreased — the lag just before the first strict decrease
of `acint`, or `tmax` if no decrease occurs up to lag `tmax`. -/
def pickLag (acint : List ℚ) (tmax : ℕ) : ℕ := (firstDec acint tmax).getD tmax

/-- The scan state after `getTauInt`'s loop has picked lag `p`: the running
estimate `acint[p]`, the squared jackknife error and the bias of the jackknife
bins `acintj[p]`, and `itpick = p`. -/
def pickedState (acint : List ℚ) (acintj : List (List ℚ)) (nbins p : ℕ) (lm : Bool) : TauScan :=
  { lmonoton := lm,
    tau_int := acint.getD p 0,
    tau_inte_sq := (jack_mean_and_err_sq (acintj.getD p [])).2,
    tau_intbias := ((nbins : ℚ) - 1) *
      |acint.getD p 0 - (jack_mean_and_err_sq (acintj.getD p [])).1|,
    itpick := (p : ℤ) }

end LatStat

namespace LatFit

open LatStat

/-- Transpose of a rectangular list-of-rows matrix (numpy `.transpose()`). -/
def transposeL (m : List (List ℚ)) (cols : ℕ) : List (List ℚ) :=
  (List.range cols).map (fun j => m.map (fun row => row.getD j 0))

/-- Dot product of two vectors (`np.dot` on 1-D arrays). -/
def dotL (a b : List ℚ) : ℚ := listSum (List.zipWith (fun x y => x * y) a b)

/-- Matrix–vector product (`m.dot(v)` for a 2-D `m`). -/
def matVec (m : List (List ℚ)) (v : List ℚ) : List ℚ := m.map (fun row => dotL row v)

/-- Elementwise division of equally long vectors (numpy broadcast `a / b`). -/
def vdiv (a b : List ℚ) : List ℚ := List.zipWith (fun x y => x / y) a b

/-- Elementwise difference (numpy `a - b`). -/
def vsub (a b : List ℚ) : List ℚ := List.zipWith (fun x y => x - y) a b

/-- The vector `2*(params - priorval)/priorsigma**2`, componentwise. -/
def priorGradTerms (params priorval priorsigma : List ℚ) : List ℚ :=
  List.zipWith (fun d s => 2 * d / s ^ 2) (vsub params priorval) priorsigma

/-- The data of a `Fitter` instance that `grad_chisquare` reads.  `sigma` models
`np.sqrt(np.diag(self._cov))` (the per-point standard deviations, carried
directly since roots of rationals are irrational); `fit_ansatz_array` and
`jacobian_fit_ansatz_array` model the cached wrappers around the fit function
and its Jacobian, the latter with one row per data point and one column per
parameter, as returned by `self.jacobian_fit_ansatz_array`. -/
structure FitterModel where
  ydata : List ℚ
  sigma : List ℚ
  fit_inv_cor : List (List ℚ)
  fit_ansatz_array : List ℚ → List ℚ
  jacobian_fit_ansatz_array : List ℚ → List (List ℚ)
  priorval : List ℚ
  priorsigma : List ℚ
  checkprior : Bool
  numb_params : ℕ

/-- The data part of `grad_chisquare`:
`2 * jac.dot(fit_inv_cor.dot(diff))` after `jac` (transposed to one row per
parameter) and `diff = fit_ansatz_array(params) - ydata` are divided by `sigma`. -/
def grad_chisquare_dataTerm (F : FitterModel) (params : List ℚ) : List ℚ :=
  let jac := transposeL (F.jacobian_fit_ansatz_array params) F.numb_params
  let diff := vsub (F.fit_ansatz_array params) F.ydata
  let jacn := jac.map (fun row => vdiv row F.sigma)
  let diffn := vdiv diff F.sigma
  (matVec jacn (matVec F.fit_inv_cor diffn)).map (fun y => 2 * y)

/-- `Fitter.grad_chisquare` from fitting.py: the data term, and when priors are
active the source adds `np.sum( 2*( np.array(params) - self._priorval ) /
self._priorsigma**2 )` — a scalar (`np.sum`!) broadcast onto every component. -/
def grad_chisquare (F : FitterModel) (params : List ℚ) : List ℚ :=
  let res := grad_chisquare_dataTerm F params
  if F.checkprior then
    let priorSum := listSum (priorGradTerms params F.priorval F.priorsigma)
    res.map (fun y => y + priorSum)
  else res

/-- The gradient the claim (and the mathematical gradient of the chi-square's
prior penalty `Σ ((p_i - priorval_i)/priorsigma_i)^2`) asserts: the data term
plus, in each component separately, `2*(p_i - priorval_i)/priorsigma_i^2`. -/
def claimed_grad_chisquare (F : FitterModel) (params : List ℚ) : List ℚ :=
  let res := grad_chisquare_dataTerm F params
  if F.checkprior then
    List.zipWith (fun y t => y + t) res (priorGradTerms params F.priorval F.priorsigma)
  else res

/-- A two-parameter fitter on one data point with unit errors, constant zero
model and zero Jacobian, with active priors of mean `0` and width `1`. -/
def bugFitter : FitterModel where
  ydata := [0]
  sigma := [1]
  fit_inv_cor := [[1]]
  fit_ansatz_array := fun _ => [0]
  jacobian_fit_ansatz_array := fun _ => [[0, 0]]
  priorval := [0, 0]
  priorsigma := [1, 1]
  checkprior := true
  numb_params := 2

/-- `Fitter.getDOF` from fitting.py: `len(ydata)` with priors active, otherwise
`len(ydata) - len(params)`; fatal `TBError` when this is negative. -/
def getDOF (checkprior : Bool) (ndata nparams : ℕ) : Except String ℤ :=
  let dof : ℤ := if checkprior then (ndata : ℤ) else (ndata : ℤ) - (nparams : ℤ)
  if dof < 0 then Except.error "Fewer data than fit parameters!" else Except.ok dof

/-- The parameter covariance of `Fitter.compute_err`: either `np.full((n,n), np.nan)`
(the `dof <= 0` branch) or an actual matrix. -/
inductive PcovResult
  | nanMat (n : ℕ)
  | mat (m : List (List ℚ))
deriving DecidableEq, Repr

/-- Multiplying a `PcovResult` by a scalar (`pcov *= chi2/dof`); NaN stays NaN. -/
def scalePcov (c : ℚ) : PcovResult → PcovResult
  | PcovResult.nanMat n => PcovResult.nanMat n
  | PcovResult.mat m => PcovResult.mat (m.map (fun row => row.map (fun x => c * x)))

/-- The data of a `Fitter` instance that `compute_err` reads.  `strategy` models
the dispatch on `self._errorAlg` to `pcov_error_prop` / `pcov_hessian` — the
elaborate matrix computation of the chosen strategy, which may itself raise
`ValueError` (modelled as `Except.error`). -/
structure ErrCfg where
  checkprior : Bool
  ndata : ℕ
  norm_err_chi2 : Bool
  strategy : List ℚ → Except String (List (List ℚ))

/-- `Fitter.compute_err` from fitting.py: gets `dof` from `getDOF` (whose fatal
error propagates), fills the parameter covariance with NaN when `dof <= 0` and
otherwise delegates to the error strategy; finally the optional rescale by
`chi2/dof` (a Python `ZeroDivisionError` if `dof` is `0` there).  The source
additionally returns `np.sqrt(np.diag(pcov))`; the embedding returns the matrix
only, the diagonal being recoverable from it. -/
def compute_err (C : ErrCfg) (params : List ℚ) (chi2 : ℚ) : Except String PcovResult :=
  match getDOF C.checkprior C.ndata params.length with
  | Except.error e => Except.error e
  | Except.ok dof =>
    let pcovE : Except String PcovResult :=
      if dof ≤ 0 then Except.ok (PcovResult.nanMat params.length)
      else
        match C.strategy params with
        | Except.error e => Except.error e
        | Except.ok m => Except.ok (PcovResult.mat m)
    match pcovE with
    | Except.error e => Except.error e
    | Except.ok pcov =>
      if C.norm_err_chi2 then
        if dof = 0 then Except.error "ZeroDivisionError"
        else Except.ok (scalePcov (chi2 / (dof : ℚ)) pcov)
      else Except.ok pcov

/-- The successful outcome of `Fitter._general_fit` for one algorithm:
`params, fit_errors, chi2, pcov`.  Under the exact-rational semantics a
successful chi-square is a finite rational. -/
structure FitResult where
  params : List ℚ
  fit_errors : List ℚ
  chi2 : ℚ
  pcov : List (List ℚ)
deriving DecidableEq, Repr

/-- A fatal `TBError` surfaced by `try_fit`: either one of its configuration
checks, or the final "No algorithm converged" error, which follows the
`TBFail` lines enumerating every attempted algorithm with its recorded
exception. -/
inductive TBErr
  | tbconfig (msg : String)
  | noConverge (fails : List (String × Option String))
deriving DecidableEq, Repr

/-- The triple `try_fit` returns (without the `detailedInfo` additions):
best parameters, their errors, and `chi^2/dof` (`np.inf`, i.e. `⊤`, when
`dof <= 0`). -/
structure TryFitOut where
  params : List ℚ
  params_err : List ℚ
  chidof : WithTop ℚ
deriving DecidableEq, Repr

/-- One row of `resultSummary` as produced by `Fitter._tryAlgorithm`: the
general-fit outcome of one algorithm with any exception caught and recorded as
that attempt's failure (`params = None`, `chi2 = np.inf`, the exception in the
last slot).  The attempt itself — dispatching `_general_fit` with the given
start parameters — is abstracted as `attempt`. -/
def tryAlgorithm (attempt : String → Except String FitResult) (alg : String) :
    Option FitResult × WithTop ℚ × Option String :=
  match attempt alg with
  | Except.ok r => (some r, (r.chi2 : WithTop ℚ), none)
  | Except.error e => (none, ⊤, some e)

/-- `np.argmin`'s scan: remembers the first index attaining the running minimum. -/
def argminAux (l : List (WithTop ℚ)) (i bi : ℕ) (bv : WithTop ℚ) : ℕ :=
  match l with
  | [] => bi
  | v :: rest => if v < bv then argminAux rest (i + 1) i v else argminAux rest (i + 1) bi bv

/-- `np.argmin` on a 1-D array: the first index of the smallest element. -/
def np_argmin (l : List (WithTop ℚ))  : ℕ :=
  match l with
  | [] => 0
  | v :: rest => argminAux rest 1 0 v

/-- The per-instance data `try_fit` reads besides the attempts: the fixed
algorithm sets, the retained start parameters and the data count. -/
structure TryCfg where
  std_algs : List String
  all_algs : List String
  saved_params : List ℚ
  ydata_len : ℕ

/-- The `algorithms` argument of `try_fit`: `None` (standard set), `'all'`, or an
explicit list. -/
inductive AlgArg
  | dflt
  | all
  | given (algs : List String)

/-- Resolution of the `algorithms` argument at the top of `try_fit`. -/
def resolveAlgs (C : TryCfg) : AlgArg → List String
  | AlgArg.dflt => C.std_algs
  | AlgArg.all => C.all_algs
  | AlgArg.given a => a

/-- The tail of `try_fit` after the prior checks: run every candidate algorithm
(`parallel_function_eval` keeps the order of `algorithms`), raise the fatal
"No algorithm converged" error — after `TBFail`-listing every algorithm with its
exception — exactly when every chi-square is `np.inf`, otherwise select the
first smallest chi-square, store its results, and return them with `chi^2/dof`.
The `match` fallbacks for a selected failed row are unreachable because the
all-failed case was excluded. -/
def runAlgs (C : TryCfg) (attempt : String → Except String FitResult)
    (algorithms : List String) (checkprior : Bool) : Except TBErr TryFitOut :=
  let resultSummary := algorithms.map (tryAlgorithm attempt)
  let all_chi2 := resultSummary.map (fun r => r.2.1)
  if all_chi2.all (fun c => c = ⊤) then
    Except.error (TBErr.noConverge (algorithms.zip (resultSummary.map (fun r => r.2.2))))
  else
    let min_ind := np_argmin all_chi2
    let best := resultSummary.getD min_ind (none, ⊤, none)
    let saved_params := match best.1 with | some r => r.params | none => C.saved_params
    let best_errors := match best.1 with | some r => r.fit_errors | none => []
    let best_chi2 := match best.1 with | some r => r.chi2 | none => 0
    match getDOF checkprior C.ydata_len saved_params.length with
    | Except.error e => Except.error (TBErr.tbconfig e)
    | Except.ok dof =>
      let chidof : WithTop ℚ := if dof ≤ 0 then ⊤ else ((best_chi2 / (dof : ℚ) : ℚ) : WithTop ℚ)
      Except.ok { params := saved_params, params_err := best_errors, chidof := chidof }

/-- `Fitter.try_fit` from fitting.py (`detailedInfo = False` path; the flag only
appends `logGBF` and `pcov` to a successful return).  In order: resolve the
algorithm set; default the start parameters to the prior means; the start-
parameter consistency check (`check_start_params`, total here since the model
function is total and rationals are never NaN); the prior initialization with
its fatal configuration checks — prior sigma without prior mean, prior mean
without prior sigma, and the two length checks — and only then the attempts. -/
def try_fit (C : TryCfg) (attempt : String → Except String FitResult) (algArg : AlgArg)
    (start_params priorval priorsigma : Option (List ℚ)) : Except TBErr TryFitOut :=
  let algorithms := resolveAlgs C algArg
  let start_params := match start_params, priorval with
    | none, some pv => some pv
    | sp, _ => sp
  let saved := match start_params with | some sp => sp | none => C.saved_params
  let numb_params := saved.length
  match priorsigma, priorval with
  | some _, none => Except.error (TBErr.tbconfig "priorsigma passed but priorval is None")
  | none, some _ => Except.error (TBErr.tbconfig "priorval passed but priorsigma is None")
  | some ps, some pv =>
    if ps.length ≠ numb_params then
      Except.error (TBErr.tbconfig "Number priorsigma != number of fit parameters")
    else if pv.length ≠ numb_params then
      Except.error (TBErr.tbconfig "Number priorval != number of fit parameters")
    else runAlgs C attempt algorithms true
  | none, none => runAlgs C attempt algorithms false

/-- The `edata` argument of the `Fitter` constructor: per-point errors (1-D) or a
full covariance matrix (2-D). -/
inductive EData
  | oneD (e : List ℚ)
  | twoD (m : List (List ℚ))

/-- Modelled from the spec: `isHigherDimensional` (from `latqcdtools.base.utilities`,
which is not under src/) detects whether `edata` is a 2-D covariance matrix by
attempting a 2-D index; on the structured `EData` this is the `twoD` case. -/
def isHigherDimensional : EData → Bool
  | EData.oneD _ => false
  | EData.twoD _ => true

/-- `np.diag` of a vector: the square matrix with the vector on the diagonal. -/
def diagM (l : List ℚ) : List (List ℚ) :=
  (List.range l.length).map
    (fun i => (List.range l.length).map (fun j => if i = j then l.getD i 0 else 0))

/-- The covariance construction of `Fitter.__init__`: with no `edata`,
`np.diag(np.ones(len(ydata)))`; with `edata` higher-dimensional, `edata` itself;
otherwise `np.diag(np.array(edata)**2)`. -/
def initCov (ydata_len : ℕ) : Option EData → List (List ℚ)
  | none => diagM (List.replicate ydata_len 1)
  | some e =>
    if isHigherDimensional e then
      match e with | EData.twoD m => m | EData.oneD _ => []
    else
      match e with | EData.oneD l => diagM (l.map (fun x => x ^ 2)) | EData.twoD _ => []

/-- Entry `(i, j)` of a list-of-rows matrix. -/
def entryM (m : List (List ℚ)) (i j : ℕ) : ℚ := (m.getD i []).getD j 0

/-- The failure reason `_tryAlgorithm` records for one algorithm: `None` when the
attempt succeeded, otherwise the caught exception. -/
def failReason (attempt : String → Except String FitResult) (a : String) : Option String :=
  match attempt a with
  | Except.ok _ => none
  | Except.error e => some e

/-- A concrete `compute_err` configuration with one data point, no priors, no
chi-square rescaling and a trivially successful error strategy. -/
def dofZeroCfg : ErrCfg :=
  { checkprior := false, ndata := 1, norm_err_chi2 := false,
    strategy := fun _ => Except.ok [[1]] }

/-- A concrete fitter configuration for exercising `try_fit`: three data points,
retained start parameters `[1]`. -/
def wCfg : TryCfg :=
  { std_algs := ["curve_fit", "TNC", "Powell", "Nelder-Mead", "COBYLA"],
    all_algs := ["curve_fit", "L-BFGS-B", "TNC", "Powell", "Nelder-Mead", "COBYLA", "SLSQP",
      "CG", "dogleg", "trust-ncg"],
    saved_params := [1], ydata_len := 3 }

/-- A concrete attempt outcome map: `curve_fit` converges with chi-square `5`,
every other algorithm raises. -/
def wAttempt : String → Except String FitResult := fun a =>
  if a = "curve_fit" then
    Except.ok { params := [1], fit_errors := [0], chi2 := 5, pcov := [[0]] }
  else Except.error "boom"

end LatFit

namespace LatStat

theorem getD_range_map {α : Type} (f : ℕ → α) (n i : ℕ) (d : α) (h : i < n) :
    ((List.range n).map f).getD i d = f i := by
  simp [List.getD_eq_getElem?_getD, List.getElem?_map, List.getElem?_range, h]

theorem getD_map_lt {α β : Type} (f : α → β) (l : List α) (i : ℕ) (d : β) (d' : α)
    (h : i < l.length) :
    (l.map f).getD i d = f (l.getD i d') := by
  simp [List.getD_eq_getElem?_getD, List.getElem?_map, List.getElem?_eq_getElem, h]

theorem getD_lt_eq {α : Type} (l : List α) (i : ℕ) (d d' : α) (h : i < l.length) :
    l.getD i d = l.getD i d' := by
  simp [List.getD_eq_getElem?_getD, List.getElem?_eq_getElem, h]

theorem listSum_const (x : List ℚ) (c : ℚ) (h : ∀ i, i < x.length → x.getD i 0 = c) :
    listSum x = x.length * c := by
  induction x with
  | nil => simp [listSum]
  | cons a l ih =>
    have ha : a = c := by
      have := h 0 (by simp)
      simpa using this
    have hl : listSum l = l.length * c := by
      apply ih
      intro i hi
      have := h (i + 1) (by simpa using Nat.succ_lt_succ hi)
      simpa using this
    simp only [listSum, List.foldr_cons] at *
    rw [hl, List.length_cons, ha]
    push_cast
    ring

/-- C3 (counterexample): on the one-element input `[5]`, `std_var` and `std_dev`
return NaN (numpy's zero-degrees-of-freedom result) and do not signal any error,
contradicting the claim that inputs of length `n < 2` signal a fatal input error. -/
theorem std_var_n1_returns_nan :
    std_var [(5 : ℚ)] = Except.ok PyVal.nan ∧ std_dev_sq [(5 : ℚ)] = Except.ok PyVal.nan ∧
    (¬ ∃ e, std_var [(5 : ℚ)] = Except.error e) ∧
    (¬ ∃ e, std_dev_sq [(5 : ℚ)] = Except.error e) := by
  refine ⟨rfl, rfl, ?_, ?_⟩ <;> rintro ⟨e, he⟩ <;> simp [std_var, std_dev_sq, np_var_ddof1] at he

/-- C3 (amended): `std_var` and `std_dev` contain no fatal-error check: on an
empty input the `reduce_tuple` wrapper raises an IndexError, on a one-element
input `np.var`/`np.std` with `ddof = 1` return NaN without raising, and for
`n ≥ 2` they return the unbiased Bessel-corrected (divisor `n - 1`) estimator
(`std_dev` its square root, carried squared in the embedding). -/
theorem std_var_std_dev_bessel (data : List ℚ) :
    (data = [] → std_var data = Except.error "IndexError" ∧
      std_dev_sq data = Except.error "IndexError") ∧
    (data.length = 1 → std_var data = Except.ok PyVal.nan ∧
      std_dev_sq data = Except.ok PyVal.nan) ∧
    (2 ≤ data.length → std_var data = Except.ok (PyVal.val (besselVar data)) ∧
      std_dev_sq data = Except.ok (PyVal.val (besselVar data))) := by
  refine ⟨?_, ?_, ?_⟩ <;> intro h
  · subst h; exact ⟨rfl, rfl⟩
  · match data, h with
    | [a], _ => exact ⟨rfl, rfl⟩
  · match data, h with
    | a :: l, h =>
      have hne : l ≠ [] := by
        cases l
        · simp at h
        · simp
      constructor <;> simp [std_var, std_dev_sq, np_var_ddof1, besselVar, hne]

/-- C3 (witness). -/
theorem std_var_std_dev_bessel_witness :
    2 ≤ ([1, 2, 4] : List ℚ).length ∧
    std_var [1, 2, 4] = Except.ok (PyVal.val (besselVar [1, 2, 4])) ∧
    std_dev_sq [1, 2, 4] = Except.ok (PyVal.val (besselVar [1, 2, 4])) :=
  ⟨by decide, ((std_var_std_dev_bessel [1, 2, 4]).2.2 (by decide)).1,
    ((std_var_std_dev_bessel [1, 2, 4]).2.2 (by decide)).2⟩

/-- C9: for `n ≥ 2`, `jackknifeFrom x` succeeds with the vector whose `i`-th entry
is the mean of all elements except `x[i]`, i.e. `(sum x - x[i])/(n-1)`; on a
constant sequence it returns that constant at every index; for `n < 2` it signals
the fatal error. -/
theorem jackknifeFrom_spec (x : List ℚ) :
    (2 ≤ x.length →
      ∃ xj, jackknifeFrom x = Except.ok xj ∧ xj.length = x.length ∧
        (∀ i, i < x.length → xj.getD i 0 = (listSum x - x.getD i 0) / ((x.length : ℚ) - 1)) ∧
        (∀ c, (∀ i, i < x.length → x.getD i 0 = c) → ∀ i, i < x.length → xj.getD i 0 = c)) ∧
    (x.length < 2 → jackknifeFrom x = Except.error "Need n>1.") := by
  constructor
  · intro h2
    have hne : ¬ x.length < 2 := by omega
    refine ⟨x.map (fun xi => 1 / ((x.length : ℚ) - 1) * (listSum x - xi)), ?_, by simp, ?_, ?_⟩
    · simp [jackknifeFrom, hne]
    · intro i hi
      rw [getD_map_lt _ _ _ _ 0 hi]
      ring
    · intro c hc i hi
      rw [getD_map_lt _ _ _ _ 0 hi, hc i hi, listSum_const x c hc]
      have hden : ((x.length : ℚ) - 1) ≠ 0 := by
        have : (2 : ℚ) ≤ (x.length : ℚ) := by exact_mod_cast h2
        intro hz
        nlinarith
      field_simp
      ring
  · intro h
    simp [jackknifeFrom, h]

/-- C9 (witness). -/
theorem jackknifeFrom_spec_witness :
    2 ≤ ([3, 3, 3] : List ℚ).length ∧
    (∃ xj, jackknifeFrom [3, 3, 3] = Except.ok xj ∧ xj.length = ([3, 3, 3] : List ℚ).length ∧
      (∀ i, i < ([3, 3, 3] : List ℚ).length →
        xj.getD i 0 = (listSum [3, 3, 3] - ([3, 3, 3] : List ℚ).getD i 0) /
          ((([3, 3, 3] : List ℚ).length : ℚ) - 1)) ∧
      (∀ c, (∀ i, i < ([3, 3, 3] : List ℚ).length → ([3, 3, 3] : List ℚ).getD i 0 = c) →
        ∀ i, i < ([3, 3, 3] : List ℚ).length → xj.getD i 0 = c)) :=
  ⟨by decide, (jackknifeFrom_spec [3, 3, 3]).1 (by decide)⟩

/-- C8: for `ndat ≥ 2` and `nt < ndat`, `tauint` succeeds and its result `acint`
has `acint[0] = 1` exactly and `acint[t] = acint[t-1] + 2*acov[t]/acov[0]` for
`1 ≤ t ≤ nt`, where `acov` is the biased autocovariance centered at the supplied
true mean when `xhat` is given, and otherwise centered at the sample mean and
multiplied by the finite-sample correction factor `ndat/(ndat-1)`. -/
theorem tauint_acint_recursion (nt : ℕ) (ts : List ℚ) (xhat : Option ℚ)
    (h2 : 2 ≤ ts.length) (hnt : nt < ts.length) :
    ∃ acint, tauint nt ts xhat = Except.ok acint ∧ acint.length = nt + 1 ∧
      acint.getD 0 0 = 1 ∧
      (∀ t, 1 ≤ t → t ≤ nt →
        acint.getD t 0 = acint.getD (t - 1) 0 + 2 * acov ts xhat t / acov ts xhat 0) ∧
      (∀ x, xhat = some x → ∀ it, acov ts xhat it = acovRaw ts x it) ∧
      (xhat = none → ∀ it,
        acov ts xhat it = acovRaw ts (std_mean ts) it * (ts.length : ℚ) / ((ts.length : ℚ) - 1)) := by
  have hc1 : ¬ ts.length < 2 := by omega
  have hc2 : ¬ nt ≥ ts.length := by omega
  refine ⟨(List.range (nt + 1)).map (acintAt ts xhat), ?_, by simp, ?_, ?_, ?_, ?_⟩
  · simp [tauint, hc1, hc2]
  · rw [getD_range_map _ _ _ _ (by omega)]
    simp [acintAt]
  · intro t h1 ht
    obtain ⟨s, rfl⟩ : ∃ s, t = s + 1 := ⟨t - 1, by omega⟩
    rw [getD_range_map _ _ _ _ (by omega), getD_range_map _ _ _ _ (by omega)]
    simp [acintAt]
  · intro x hx it
    subst hx
    rfl
  · intro hx it
    subst hx
    rfl

/-- C8 (witness). -/
theorem tauint_acint_recursion_witness :
    2 ≤ ([0, 1, 2] : List ℚ).length ∧ 1 < ([0, 1, 2] : List ℚ).length ∧
    (∃ acint, tauint 1 [0, 1, 2] none = Except.ok acint ∧ acint.length = 2 ∧
      acint.getD 0 0 = 1 ∧
      (∀ t, 1 ≤ t → t ≤ 1 →
        acint.getD t 0 = acint.getD (t - 1) 0 +
          2 * acov [0, 1, 2] none t / acov [0, 1, 2] none 0) ∧
      (∀ x, (none : Option ℚ) = some x → ∀ it, acov [0, 1, 2] none it = acovRaw [0, 1, 2] x it) ∧
      ((none : Option ℚ) = none → ∀ it,
        acov [0, 1, 2] none it = acovRaw [0, 1, 2] (std_mean [0, 1, 2]) it *
          (([0, 1, 2] : List ℚ).length : ℚ) / ((([0, 1, 2] : List ℚ).length : ℚ) - 1))) :=
  ⟨by decide, by decide, tauint_acint_recursion 1 [0, 1, 2] none (by decide) (by decide)⟩

theorem jackknifeFrom_of_two_le (x : List ℚ) (h : 2 ≤ x.length) :
    jackknifeFrom x = Except.ok (jackknifePure x) := by
  have hne : ¬ x.length < 2 := by omega
  simp [jackknifeFrom, jackknifePure, hne]

theorem buildAcorj_char (ts : List ℚ) (xhat : Option ℚ) (nbins : ℕ) (hb : 2 ≤ nbins)
    (l : List ℕ) :
    buildAcorj ts xhat nbins l =
      if l.any (fun it => spillB ts.length nbins it) then Except.error "it>=itmax."
      else Except.ok (l.map (acorjPure ts xhat nbins)) := by
  induction l with
  | nil => simp [buildAcorj]
  | cons it rest ih =>
    by_cases hs : spillB ts.length nbins it
    · simp [buildAcorj, acorjRow, hs]
    · have hrow : acorjRow ts xhat nbins it = Except.ok (acorjPure ts xhat nbins it) := by
        simp only [acorjRow, hs, Bool.false_eq_true, if_false]
        rw [jackknifeFrom_of_two_le]
        · rfl
        · simpa using hb
      by_cases hr : rest.any (fun i => spillB ts.length nbins i)
      · simp [buildAcorj, hrow, ih, hs, hr]
      · simp [buildAcorj, hrow, ih, hs, hr]

/-- C6 (counterexample): for the length-10 series below with `nbins = 2` and
maximum lag `nt = 3`, `tauintj` signals the fatal lag-loop error even though the
last of the two equal-size blocks of the `ndat - nt = 7` usable pairs has size
`⌊7/2⌋ = 3` and is not empty, contradicting the claimed "exactly when" error
condition. -/
theorem tauintj_fatal_despite_nonempty_last_block :
    tauintj 3 2 [0, 1, 0, 1, 0, 1, 0, 1, 0, 1] none = Except.error "it>=itmax." ∧
    ¬ lastBlockEmpty ([0, 1, 0, 1, 0, 1, 0, 1, 0, 1] : List ℚ).length 2 3 := by
  exact ⟨rfl, by decide⟩

/-- C6 (amended): for `ndat ≥ 2` and `nbins ≥ 2`, `tauintj` signals a fatal error
exactly when some lag `it ≤ nt` trips the loop guard
`it ≥ nbins*⌊(ndat-it)/nbins⌋ - ⌊(ndat-it)/nbins⌋` (which subsumes, but is
strictly wider than, an empty last block); otherwise it returns the per-lag,
per-bin table of integrated-autocorrelation estimates accumulated from the
jackknifed per-block autocovariances. -/
theorem tauintj_error_characterization (nt nbins : ℕ) (ts : List ℚ) (xhat : Option ℚ)
    (h2 : 2 ≤ ts.length) (hb : 2 ≤ nbins) :
    ((∃ e, tauintj nt nbins ts xhat = Except.error e) ↔
      ∃ it, it ≤ nt ∧ spillB ts.length nbins it = true) ∧
    (∀ acintj, tauintj nt nbins ts xhat = Except.ok acintj →
      acintj = (List.range (nt + 1)).map
        (acintjRowFrom ((List.range (nt + 1)).map (acorjPure ts xhat nbins)) nbins)) := by
  have hc1 : ¬ ts.length < 2 := by omega
  have hc2 : ¬ nbins < 2 := by omega
  have hbuild := buildAcorj_char ts xhat nbins hb (List.range (nt + 1))
  have hmem : ((List.range (nt + 1)).any (fun it => spillB ts.length nbins it) = true) ↔
      ∃ it, it ≤ nt ∧ spillB ts.length nbins it = true := by
    rw [List.any_eq_true]
    constructor
    · rintro ⟨it, hmemi, hsp⟩
      exact ⟨it, by simpa [Nat.lt_succ_iff] using List.mem_range.mp hmemi, hsp⟩
    · rintro ⟨it, hle, hsp⟩
      exact ⟨it, List.mem_range.mpr (by omega), hsp⟩
  by_cases hany : (List.range (nt + 1)).any (fun it => spillB ts.length nbins it)
  · rw [if_pos hany] at hbuild
    have htj : tauintj nt nbins ts xhat = Except.error "it>=itmax." := by
      unfold tauintj
      rw [if_neg hc1, if_neg hc2, hbuild]
    refine ⟨?_, ?_⟩
    · rw [htj]
      exact ⟨fun _ => hmem.mp hany, fun _ => ⟨"it>=itmax.", rfl⟩⟩
    · intro acintj hok
      rw [htj] at hok
      exact absurd hok (by simp)
  · rw [if_neg hany] at hbuild
    have htj : tauintj nt nbins ts xhat = Except.ok ((List.range (nt + 1)).map
        (acintjRowFrom ((List.range (nt + 1)).map (acorjPure ts xhat nbins)) nbins)) := by
      unfold tauintj
      rw [if_neg hc1, if_neg hc2, hbuild]
    refine ⟨?_, ?_⟩
    · rw [htj]
      constructor
      · rintro ⟨e, he⟩
        exact absurd he (by simp)
      · intro hex
        exact absurd (hmem.mpr hex) hany
    · intro acintj hok
      rw [htj] at hok
      simpa using hok.symm

/-- C6 (witness). -/
theorem tauintj_error_characterization_witness :
    2 ≤ ([0, 1, 0, 1] : List ℚ).length ∧ 2 ≤ 2 ∧
    (((∃ e, tauintj 0 2 [0, 1, 0, 1] none = Except.error e) ↔
      ∃ it, it ≤ 0 ∧ spillB ([0, 1, 0, 1] : List ℚ).length 2 it = true) ∧
    (∀ acintj, tauintj 0 2 [0, 1, 0, 1] none = Except.ok acintj →
      acintj = (List.range 1).map
        (acintjRowFrom ((List.range 1).map (acorjPure [0, 1, 0, 1] none 2)) 2))) :=
  ⟨by decide, by decide, tauintj_error_characterization 0 2 [0, 1, 0, 1] none (by decide) (by decide)⟩

theorem tauStep_stopped (acint : List ℚ) (acintj : List (List ℚ)) (nbins p it : ℕ) :
    tauStep acint acintj nbins (pickedState acint acintj nbins p false) it =
      pickedState acint acintj nbins p false := by
  simp [tauStep, pickedState]

theorem tauStep_running (acint : List ℚ) (acintj : List (List ℚ)) (nbins p it : ℕ) :
    tauStep acint acintj nbins (pickedState acint acintj nbins p true) it =
      if acint.getD it 0 < acint.getD p 0 then pickedState acint acintj nbins p false
      else pickedState acint acintj nbins it true := by
  simp only [tauStep, pickedState]
  by_cases h : acint.getD it 0 < acint.getD p 0
  · rw [if_neg (not_not_intro h), if_pos h]
    simp
  · rw [if_pos h, if_neg h]
    simp

theorem scan_foldl_char (acint : List ℚ) (acintj : List (List ℚ)) (nbins : ℕ)
    (h0 : acint.getD 0 0 = 1) (m : ℕ) :
    (List.range (m + 1)).foldl (tauStep acint acintj nbins) tauScanInit =
    (match firstDec acint m with
      | some p => pickedState acint acintj nbins p false
      | none => pickedState acint acintj nbins m true) := by
  induction m with
  | zero =>
    show tauStep acint acintj nbins tauScanInit 0 = pickedState acint acintj nbins 0 true
    simp only [tauStep, pickedState, tauScanInit]
    rw [if_pos (show ¬ (acint.getD 0 0 < (0 : ℚ)) from by rw [h0]; norm_num)]
    simp
  | succ m ih =>
    rw [List.range_succ, List.foldl_append, ih]
    simp only [List.foldl_cons, List.foldl_nil]
    cases hfd : firstDec acint m with
    | some p =>
      rw [tauStep_stopped]
      simp only [firstDec, hfd]
    | none =>
      rw [tauStep_running]
      simp only [firstDec, hfd]
      by_cases hdec : acint.getD (m + 1) 0 < acint.getD m 0
      · rw [if_pos hdec, if_pos hdec]
      · rw [if_neg hdec, if_neg hdec]

theorem getTauInt_eq_of (ts : List ℚ) (nbins tpickMax : ℕ)
    (acint : List ℚ) (acintj : List (List ℚ))
    (hint : tauint tpickMax ts none = Except.ok acint)
    (hintj : tauintj tpickMax nbins ts none = Except.ok acintj) :
    getTauInt ts nbins tpickMax = Except.ok
      { tau_int := ((List.range (tpickMax + 1)).foldl (tauStep acint acintj nbins)
          tauScanInit).tau_int,
        tau_inte_sq := ((List.range (tpickMax + 1)).foldl (tauStep acint acintj nbins)
          tauScanInit).tau_inte_sq,
        tau_intbias := ((List.range (tpickMax + 1)).foldl (tauStep acint acintj nbins)
          tauScanInit).tau_intbias,
        itpick := ((List.range (tpickMax + 1)).foldl (tauStep acint acintj nbins)
          tauScanInit).itpick } := by
  unfold getTauInt
  rw [hint, hintj]

/-- C7: whenever `getTauInt` succeeds, it reports the pick lag `pickLag acint` —
the last lag at which the running estimate `acint` has not yet decreased, the
first strict decrease ending the scan — together with, at that lag, the estimate
`acint[itpick]`, its jackknife error (carried squared), and the bias
`(nbins-1)*|acint[itpick] - mean of the jackknife-bin estimates|`. -/
theorem getTauInt_pick_rule (ts : List ℚ) (nbins tpickMax : ℕ) (r : TauIntResult)
    (acint : List ℚ) (acintj : List (List ℚ))
    (hint : tauint tpickMax ts none = Except.ok acint)
    (hintj : tauintj tpickMax nbins ts none = Except.ok acintj)
    (hr : getTauInt ts nbins tpickMax = Except.ok r) :
    r.itpick = (pickLag acint tpickMax : ℤ) ∧
    r.tau_int = acint.getD (pickLag acint tpickMax) 0 ∧
    r.tau_inte_sq = (jack_mean_and_err_sq (acintj.getD (pickLag acint tpickMax) [])).2 ∧
    r.tau_intbias = ((nbins : ℚ) - 1) *
      |acint.getD (pickLag acint tpickMax) 0 -
        (jack_mean_and_err_sq (acintj.getD (pickLag acint tpickMax) [])).1| := by
  have h0 : acint.getD 0 0 = 1 := by
    simp only [tauint] at hint
    by_cases hb1 : ts.length < 2
    · rw [if_pos hb1] at hint
      exact absurd hint (by simp)
    · rw [if_neg hb1] at hint
      by_cases hb2 : tpickMax ≥ ts.length
      · rw [if_pos hb2] at hint
        exact absurd hint (by simp)
      · rw [if_neg hb2] at hint
        have hai : acint = (List.range (tpickMax + 1)).map (acintAt ts none) := by
          simpa using hint.symm
        rw [hai, getD_range_map _ _ _ _ (by omega)]
        simp [acintAt]
  rw [getTauInt_eq_of ts nbins tpickMax acint acintj hint hintj] at hr
  rw [scan_foldl_char acint acintj nbins h0 tpickMax] at hr
  cases hfd : firstDec acint tpickMax with
  | some p =>
    rw [hfd] at hr
    simp only [pickedState] at hr
    have hreq := ((Except.ok.injEq _ _).mp hr).symm
    subst hreq
    unfold pickLag
    rw [hfd]
    simp
  | none =>
    rw [hfd] at hr
    simp only [pickedState] at hr
    have hreq := ((Except.ok.injEq _ _).mp hr).symm
    subst hreq
    unfold pickLag
    rw [hfd]
    simp

/-- C7 (witness). -/
theorem getTauInt_pick_rule_witness :
    tauint 0 [0, 1] none = Except.ok [1] ∧
    tauintj 0 2 [0, 1] none = Except.ok [[1, 1]] ∧
    getTauInt [0, 1] 2 0 = Except.ok
      { tau_int := 1, tau_inte_sq := 0, tau_intbias := 0, itpick := 0 } ∧
    (({ tau_int := 1, tau_inte_sq := 0, tau_intbias := 0, itpick := 0 } : TauIntResult).itpick =
        (pickLag [1] 0 : ℤ) ∧
      ({ tau_int := 1, tau_inte_sq := 0, tau_intbias := 0, itpick := 0 } : TauIntResult).tau_int =
        ([1] : List ℚ).getD (pickLag [1] 0) 0 ∧
      ({ tau_int := 1, tau_inte_sq := 0, tau_intbias := 0, itpick := 0 } :
          TauIntResult).tau_inte_sq =
        (jack_mean_and_err_sq (([[1, 1]] : List (List ℚ)).getD (pickLag [1] 0) [])).2 ∧
      ({ tau_int := 1, tau_inte_sq := 0, tau_intbias := 0, itpick := 0 } :
          TauIntResult).tau_intbias =
        ((2 : ℚ) - 1) * |([1] : List ℚ).getD (pickLag [1] 0) 0 -
          (jack_mean_and_err_sq (([[1, 1]] : List (List ℚ)).getD (pickLag [1] 0) [])).1|) := by
  have hint : tauint 0 [0, 1] none = Except.ok [1] := rfl
  have hintj : tauintj 0 2 [0, 1] none = Except.ok [[1, 1]] := rfl
  have hgt : getTauInt [0, 1] 2 0 = Except.ok
      { tau_int := 1, tau_inte_sq := 0, tau_intbias := 0, itpick := 0 } := by
    rw [getTauInt_eq_of [0, 1] 2 0 [1] [[1, 1]] hint hintj]
    rw [scan_foldl_char [1] [[1, 1]] 2 (by norm_num) 0]
    norm_num [firstDec, pickedState, jack_mean_and_err_sq, std_mean, listSum]
  have hmain := getTauInt_pick_rule [0, 1] 2 0
    { tau_int := 1, tau_inte_sq := 0, tau_intbias := 0, itpick := 0 } [1] [[1, 1]]
    hint hintj hgt
  exact ⟨hint, hintj, hgt, by simpa using hmain⟩

end LatStat


namespace LatFit

open LatStat

/-- C1: `grad_chisquare`'s prior term is `np.sum(2*(params - priorval)/priorsigma**2)`,
a scalar broadcast onto every gradient component.  On the two-parameter
`bugFitter` at `params = [1, 0]` (data term zero), the code returns `[2, 2]` while
the claimed — and mathematically correct — gradient of the chi-square's prior
penalty is `[2, 0]`: component `1`'s value depends on parameter `0`. -/
theorem grad_chisquare_prior_sum_broadcast :
    grad_chisquare bugFitter [1, 0] = [2, 2] ∧
    claimed_grad_chisquare bugFitter [1, 0] = [2, 0] ∧
    grad_chisquare bugFitter [1, 0] ≠ claimed_grad_chisquare bugFitter [1, 0] := by
  have h1 : grad_chisquare bugFitter [1, 0] = [2, 2] := by
    norm_num [grad_chisquare, grad_chisquare_dataTerm, bugFitter, transposeL, matVec, dotL,
      vdiv, vsub, priorGradTerms, listSum, List.range_succ]
  have h2 : claimed_grad_chisquare bugFitter [1, 0] = [2, 0] := by
    norm_num [claimed_grad_chisquare, grad_chisquare_dataTerm, bugFitter, transposeL, matVec,
      dotL, vdiv, vsub, priorGradTerms, listSum, List.range_succ]
  refine ⟨h1, h2, ?_⟩
  rw [h1, h2]
  simp

/-- C2 (counterexample): with one data point, one parameter and no prior the
degrees of freedom are `0`; error estimation (`compute_err`) then returns the
NaN-filled covariance matrix and does *not* signal a fatal error, contradicting
the claim that a fatal error is signaled whenever the d.o.f. are negative *or
zero*. -/
theorem compute_err_zero_dof_no_fatal :
    compute_err dofZeroCfg [1] 5 = Except.ok (PcovResult.nanMat 1) ∧
    (¬ ∃ e, compute_err dofZeroCfg [1] 5 = Except.error e) := by
  have h : compute_err dofZeroCfg [1] 5 = Except.ok (PcovResult.nanMat 1) := rfl
  refine ⟨h, ?_⟩
  rintro ⟨e, he⟩
  rw [h] at he
  exact absurd he (by simp)

/-- C2 (amended): the degrees of freedom equal the data count when priors are
active and the data count minus the parameter count otherwise; `getDOF` signals
a fatal error exactly when this is negative (only possible without priors), and
when error estimation is requested at *zero* degrees of freedom no fatal error
is raised — `compute_err` returns the NaN-filled parameter covariance instead. -/
theorem getDOF_formula_and_zero_dof_nan :
    (∀ n p : ℕ, getDOF true n p = Except.ok (n : ℤ)) ∧
    (∀ n p : ℕ, p ≤ n → getDOF false n p = Except.ok ((n : ℤ) - (p : ℤ))) ∧
    (∀ n p : ℕ, n < p → getDOF false n p = Except.error "Fewer data than fit parameters!") ∧
    (∀ (C : ErrCfg) (params : List ℚ) (chi2 : ℚ), C.checkprior = false →
      C.ndata = params.length → C.norm_err_chi2 = false →
      compute_err C params chi2 = Except.ok (PcovResult.nanMat params.length)) := by
  refine ⟨?_, ?_, ?_, ?_⟩
  · intro n p
    simp [getDOF]
  · intro n p h
    have : ¬ ((n : ℤ) - (p : ℤ) < 0) := by omega
    simp [getDOF, this]
  · intro n p h
    have : (n : ℤ) - (p : ℤ) < 0 := by omega
    simp [getDOF, this]
  · intro C params chi2 hcp hnd hnorm
    have hdof : getDOF C.checkprior C.ndata params.length = Except.ok 0 := by
      rw [hcp, hnd]
      simp [getDOF]
    unfold compute_err
    rw [hdof, hnorm]
    simp

/-- C2 (witness). -/
theorem getDOF_formula_and_zero_dof_nan_witness :
    getDOF true 3 2 = Except.ok 3 ∧ getDOF false 3 2 = Except.ok 1 ∧
    getDOF false 1 2 = Except.error "Fewer data than fit parameters!" ∧
    compute_err dofZeroCfg [1] 5 = Except.ok (PcovResult.nanMat 1) := by
  have h := getDOF_formula_and_zero_dof_nan
  refine ⟨by simpa using h.1 3 2, ?_, h.2.2.1 1 2 (by norm_num), ?_⟩
  · have := h.2.1 3 2 (by norm_num)
    simpa using this
  · have := h.2.2.2 dofZeroCfg [1] 5 rfl rfl rfl
    simpa using this

/-- C5: supplying a prior mean (`priorval`) without a prior sigma, or a prior
sigma without a prior mean, makes `try_fit` raise the corresponding fatal
configuration error; the result is this error for *every* attempt map, i.e. the
error fires before any optimization attempt is dispatched. -/
theorem try_fit_prior_mismatch_fatal (C : TryCfg) (attempt : String → Except String FitResult)
    (algArg : AlgArg) (sp : Option (List ℚ)) (pv ps : List ℚ) :
    try_fit C attempt algArg sp (some pv) none =
      Except.error (TBErr.tbconfig "priorval passed but priorsigma is None") ∧
    try_fit C attempt algArg sp none (some ps) =
      Except.error (TBErr.tbconfig "priorsigma passed but priorval is None") := by
  constructor
  · cases sp <;> rfl
  · cases sp <;> rfl

theorem diagM_entry (l : List ℚ) (i j : ℕ) (hi : i < l.length) (hj : j < l.length) :
    entryM (diagM l) i j = if i = j then l.getD i 0 else 0 := by
  unfold entryM diagM
  rw [getD_range_map _ _ _ _ hi, getD_range_map _ _ _ _ hj]

/-- C10: a `Fitter` constructed without `edata` has the identity matrix as its
data covariance (every data point gets standard deviation `1`), and with 1-D
`edata` it has the diagonal matrix of the squared per-point errors. -/
theorem initCov_identity_and_diag :
    (∀ n i j, i < n → j < n →
      entryM (initCov n none) i j = if i = j then 1 else 0) ∧
    (∀ (n : ℕ) (e : List ℚ) (i j : ℕ), i < e.length → j < e.length →
      entryM (initCov n (some (EData.oneD e))) i j = if i = j then (e.getD i 0) ^ 2 else 0) := by
  constructor
  · intro n i j hi hj
    have h1 : entryM (initCov n none) i j =
        if i = j then (List.replicate n (1 : ℚ)).getD i 0 else 0 := by
      unfold initCov
      exact diagM_entry _ i j (by simpa using hi) (by simpa using hj)
    rw [h1]
    simp [List.getD_eq_getElem?_getD, List.getElem?_replicate, hi]
  · intro n e i j hi hj
    have h1 : entryM (initCov n (some (EData.oneD e))) i j =
        if i = j then (e.map (fun x => x ^ 2)).getD i 0 else 0 := by
      unfold initCov
      exact diagM_entry _ i j (by simpa using hi) (by simpa using hj)
    rw [h1, getD_map_lt _ _ _ _ 0 hi]

/-- C10 (witness). -/
theorem initCov_identity_and_diag_witness :
    ((0 : ℕ) < 2 ∧ (1 : ℕ) < 2 ∧
      entryM (initCov 2 none) 0 0 = 1 ∧ entryM (initCov 2 none) 0 1 = 0) ∧
    (entryM (initCov 2 (some (EData.oneD [3, 4]))) 1 1 = 16 ∧
      entryM (initCov 2 (some (EData.oneD [3, 4]))) 0 1 = 0) := by
  have h := initCov_identity_and_diag
  refine ⟨⟨by norm_num, by norm_num, by simpa using h.1 2 0 0 (by norm_num) (by norm_num),
    by simpa using h.1 2 0 1 (by norm_num) (by norm_num)⟩, ?_, ?_⟩
  · have := h.2 2 [3, 4] 1 1 (by norm_num) (by norm_num)
    rw [this]
    norm_num
  · have := h.2 2 [3, 4] 0 1 (by norm_num) (by norm_num)
    rw [this]
    norm_num

end LatFit

namespace LatFit

open LatStat

theorem argminAux_spec (l : List (WithTop ℚ)) (i bi : ℕ) (bv : WithTop ℚ) :
    (argminAux l i bi bv = bi ∧ ∀ k, k < l.length → bv ≤ l.getD k ⊤) ∨
    (∃ k, k < l.length ∧ argminAux l i bi bv = i + k ∧ l.getD k ⊤ ≤ bv ∧
      ∀ m, m < l.length → l.getD k ⊤ ≤ l.getD m ⊤) := by
  induction l generalizing i bi bv with
  | nil =>
    left
    refine ⟨rfl, ?_⟩
    intro k hk
    simp at hk
  | cons v rest ih =>
    have hunf : ∀ (i' bi' : ℕ) (bv' : WithTop ℚ), argminAux (v :: rest) i' bi' bv' =
        if v < bv' then argminAux rest (i' + 1) i' v else argminAux rest (i' + 1) bi' bv' := by
      intro i' bi' bv'
      rfl
    by_cases hv : v < bv
    · rcases ih (i + 1) i v with ⟨h1, h2⟩ | ⟨k, hk, h1, h2, h3⟩
      · right
        refine ⟨0, by simp, ?_, by simpa using hv.le, ?_⟩
        · rw [hunf, if_pos hv, h1]
          omega
        · intro m hm
          cases m with
          | zero => simp
          | succ m =>
            simpa using h2 m (by simpa using Nat.lt_of_succ_lt_succ hm)
      · right
        refine ⟨k + 1, by simpa using Nat.succ_lt_succ hk, ?_, ?_, ?_⟩
        · rw [hunf, if_pos hv, h1]
          omega
        · simpa using le_trans h2 hv.le
        · intro m hm
          cases m with
          | zero => simpa using h2
          | succ m =>
            simpa using h3 m (by simpa using Nat.lt_of_succ_lt_succ hm)
    · rcases ih (i + 1) bi bv with ⟨h1, h2⟩ | ⟨k, hk, h1, h2, h3⟩
      · left
        constructor
        · rw [hunf, if_neg hv, h1]
        · intro m hm
          cases m with
          | zero => simpa using not_lt.mp hv
          | succ m =>
            simpa using h2 m (by simpa using Nat.lt_of_succ_lt_succ hm)
      · right
        refine ⟨k + 1, by simpa using Nat.succ_lt_succ hk, ?_, by simpa using h2, ?_⟩
        · rw [hunf, if_neg hv, h1]
          omega
        · intro m hm
          cases m with
          | zero => simpa using le_trans h2 (not_lt.mp hv)
          | succ m =>
            simpa using h3 m (by simpa using Nat.lt_of_succ_lt_succ hm)

theorem np_argmin_spec (l : List (WithTop ℚ)) (hne : l ≠ []) :
    np_argmin l < l.length ∧ ∀ m, m < l.length → l.getD (np_argmin l) ⊤ ≤ l.getD m ⊤ := by
  match l with
  | v :: rest =>
    rcases argminAux_spec rest 1 0 v with ⟨h1, h2⟩ | ⟨k, hk, h1, h2, h3⟩
    · have he : np_argmin (v :: rest) = 0 := h1
      rw [he]
      refine ⟨by simp, ?_⟩
      intro m hm
      cases m with
      | zero => simp
      | succ m =>
        simpa using h2 m (by simpa using Nat.lt_of_succ_lt_succ hm)
    · have he : np_argmin (v :: rest) = k + 1 := by
        show argminAux rest 1 0 v = k + 1
        rw [h1]
        omega
      rw [he]
      refine ⟨by simpa using Nat.succ_lt_succ hk, ?_⟩
      intro m hm
      cases m with
      | zero => simpa using h2
      | succ m =>
        simpa using h3 m (by simpa using Nat.lt_of_succ_lt_succ hm)


theorem tryAlgorithm_ok (attempt : String → Except String FitResult) (alg : String)
    (r : FitResult) (h : attempt alg = Except.ok r) :
    tryAlgorithm attempt alg = ((some r : Option FitResult), (r.chi2 : WithTop ℚ),
      (none : Option String)) := by
  unfold tryAlgorithm
  rw [h]

theorem tryAlgorithm_err (attempt : String → Except String FitResult) (alg : String)
    (e : String) (h : attempt alg = Except.error e) :
    tryAlgorithm attempt alg = ((none : Option FitResult), (⊤ : WithTop ℚ), some e) := by
  unfold tryAlgorithm
  rw [h]

theorem runAlgs_select (C : TryCfg) (attempt : String → Except String FitResult)
    (algorithms : List String) (checkprior : Bool)
    (hallF : ¬ ((((algorithms.map (tryAlgorithm attempt)).map (fun r => r.2.1)).all
      (fun c => decide (c = ⊤))) = true))
    (row : Option FitResult × WithTop ℚ × Option String)
    (hrow : (algorithms.map (tryAlgorithm attempt)).getD
      (np_argmin ((algorithms.map (tryAlgorithm attempt)).map (fun r => r.2.1)))
      (none, ⊤, none) = row) :
    runAlgs C attempt algorithms checkprior =
      (match getDOF checkprior C.ydata_len
          (match row.1 with | some r => r.params | none => C.saved_params).length with
        | Except.error e => Except.error (TBErr.tbconfig e)
        | Except.ok dof => Except.ok
            { params := match row.1 with | some r => r.params | none => C.saved_params,
              params_err := match row.1 with | some r => r.fit_errors | none => [],
              chidof := if dof ≤ 0 then (⊤ : WithTop ℚ)
                else ((((match row.1 with | some r => r.chi2 | none => 0) / (dof : ℚ)) : ℚ) :
                  WithTop ℚ) }) := by
  subst hrow
  unfold runAlgs
  rw [if_neg hallF]

/-- C4: with no priors supplied, `try_fit` raises a fatal error — `noConverge`,
carrying the enumeration of every attempted algorithm paired with its recorded
failure reason — exactly when every candidate attempt fails; each attempt's
exception is caught and recorded without aborting the search, and whenever at
least one attempt succeeds, the successful attempt with the smallest chi-square
is selected and its parameters, errors and `chi^2/dof` are returned. -/
theorem try_fit_failure_isolation_and_selection (C : TryCfg)
    (attempt : String → Except String FitResult) (algs : List String) (sp : Option (List ℚ))
    (hdof : ∀ a r, attempt a = Except.ok r → r.params.length ≤ C.ydata_len) :
    (try_fit C attempt (AlgArg.given algs) sp none none =
        Except.error (TBErr.noConverge (algs.zip (algs.map (failReason attempt)))) ↔
      ∀ a ∈ algs, ∃ e, attempt a = Except.error e) ∧
    ((∃ a ∈ algs, ∃ r, attempt a = Except.ok r) →
      ∃ i r, i < algs.length ∧ attempt (algs.getD i "") = Except.ok r ∧
        (∀ j r', j < algs.length → attempt (algs.getD j "") = Except.ok r' →
          r.chi2 ≤ r'.chi2) ∧
        try_fit C attempt (AlgArg.given algs) sp none none = Except.ok
          { params := r.params, params_err := r.fit_errors,
            chidof := if ((C.ydata_len : ℤ) - (r.params.length : ℤ)) ≤ 0 then (⊤ : WithTop ℚ)
              else (((r.chi2 / (((C.ydata_len : ℤ) - (r.params.length : ℤ) : ℤ) : ℚ)) : ℚ) :
                WithTop ℚ) }) := by
  have htry : try_fit C attempt (AlgArg.given algs) sp none none = runAlgs C attempt algs false := by
    cases sp <;> rfl
  have hrowAt : ∀ j, j < algs.length →
      (algs.map (tryAlgorithm attempt)).getD j (none, ⊤, none) =
        tryAlgorithm attempt (algs.getD j "") := by
    intro j hj
    exact getD_map_lt _ _ _ _ "" hj
  have hchiAt : ∀ j, j < algs.length →
      ((algs.map (tryAlgorithm attempt)).map (fun r => r.2.1)).getD j ⊤ =
        (tryAlgorithm attempt (algs.getD j "")).2.1 := by
    intro j hj
    rw [getD_map_lt (fun r => r.2.1) _ _ _ ((none : Option FitResult), (⊤ : WithTop ℚ),
      (none : Option String)) (by simpa using hj), hrowAt j hj]
  have hallIff : ((((algs.map (tryAlgorithm attempt)).map (fun r => r.2.1)).all
      (fun c => decide (c = ⊤))) = true) ↔ ∀ a ∈ algs, ∃ e, attempt a = Except.error e := by
    rw [List.all_eq_true]
    constructor
    · intro h a ha
      have hmem : (tryAlgorithm attempt a).2.1 ∈
          (algs.map (tryAlgorithm attempt)).map (fun r => r.2.1) := by
        rw [List.map_map]
        exact List.mem_map_of_mem _ ha
      have htop := of_decide_eq_true (h _ hmem)
      cases hat : attempt a with
      | ok r =>
        rw [show (tryAlgorithm attempt a).2.1 = ((r.chi2 : WithTop ℚ)) from by
          unfold tryAlgorithm
          rw [hat]] at htop
        exact absurd htop WithTop.coe_ne_top
      | error e => exact ⟨e, rfl⟩
    · intro h c hc
      rw [List.map_map, List.mem_map] at hc
      obtain ⟨a, ha, rfl⟩ := hc
      obtain ⟨e, he⟩ := h a ha
      show decide (((fun r => r.2.1) ∘ tryAlgorithm attempt) a = ⊤) = true
      have : ((fun (r : Option FitResult × WithTop ℚ × Option String) => r.2.1) ∘
          tryAlgorithm attempt) a = (⊤ : WithTop ℚ) := by
        show (tryAlgorithm attempt a).2.1 = ⊤
        unfold tryAlgorithm
        rw [he]
      rw [this]
      rfl
  have hfails : (algs.map (tryAlgorithm attempt)).map (fun r => r.2.2) =
      algs.map (failReason attempt) := by
    rw [List.map_map]
    apply List.map_congr_left
    intro a ha
    show (tryAlgorithm attempt a).2.2 = failReason attempt a
    unfold tryAlgorithm failReason
    cases hat : attempt a <;> rfl
  refine ⟨?_, ?_⟩
  · rw [htry]
    by_cases hall : ((((algs.map (tryAlgorithm attempt)).map (fun r => r.2.1)).all
        (fun c => decide (c = ⊤))) = true)
    · have herr : runAlgs C attempt algs false =
          Except.error (TBErr.noConverge (algs.zip (algs.map (failReason attempt)))) := by
        unfold runAlgs
        rw [if_pos hall, hfails]
      rw [herr]
      exact ⟨fun _ => hallIff.mp hall, fun _ => rfl⟩
    · constructor
      · intro hcontr
        rw [runAlgs_select C attempt algs false hall _ rfl] at hcontr
        split at hcontr
        · exact absurd hcontr (by simp)
        · exact absurd hcontr (by simp)
      · intro hfail
        exact absurd (hallIff.mpr hfail) hall
  · intro hex
    obtain ⟨a, ha, r₀, hr₀⟩ := hex
    obtain ⟨ja, hja, hgeta⟩ := List.getElem_of_mem ha
    have hgetDa : algs.getD ja "" = a := by
      rw [List.getD_eq_getElem?_getD, List.getElem?_eq_getElem hja]
      simpa using hgeta
    have hne : algs ≠ [] := by
      rintro rfl
      simp at ha
    have hchiNe : ((algs.map (tryAlgorithm attempt)).map (fun r => r.2.1)) ≠ [] := by
      intro hEq
      apply hne
      have := congrArg List.length hEq
      simpa using this
    obtain ⟨hlt, hmin⟩ := np_argmin_spec _ hchiNe
    have hltA : np_argmin ((algs.map (tryAlgorithm attempt)).map (fun r => r.2.1)) <
        algs.length := by
      simpa using hlt
    have hminle := hmin ja (by simpa using hja)
    rw [hchiAt _ hltA, hchiAt ja hja, hgetDa, tryAlgorithm_ok attempt a r₀ hr₀] at hminle
    cases hsel : attempt (algs.getD
        (np_argmin ((algs.map (tryAlgorithm attempt)).map (fun r => r.2.1))) "") with
    | error e =>
      rw [tryAlgorithm_err attempt _ e hsel] at hminle
      exact absurd hminle (by simp)
    | ok r =>
      have hple := hdof _ _ hsel
      have hnneg : ¬ ((C.ydata_len : ℤ) - (r.params.length : ℤ) < 0) := by omega
      have hdofok : getDOF false C.ydata_len r.params.length =
          Except.ok ((C.ydata_len : ℤ) - (r.params.length : ℤ)) := by
        simp [getDOF, hnneg]
      have hallF : ¬ ((((algs.map (tryAlgorithm attempt)).map (fun r => r.2.1)).all
          (fun c => decide (c = ⊤))) = true) := by
        intro hall
        obtain ⟨e, he⟩ := hallIff.mp hall a ha
        rw [he] at hr₀
        cases hr₀
      have hrowEq : (algs.map (tryAlgorithm attempt)).getD
          (np_argmin ((algs.map (tryAlgorithm attempt)).map (fun r => r.2.1)))
          (none, ⊤, none) =
          ((some r : Option FitResult), (r.chi2 : WithTop ℚ), (none : Option String)) := by
        rw [hrowAt _ hltA, tryAlgorithm_ok attempt _ r hsel]
      refine ⟨np_argmin ((algs.map (tryAlgorithm attempt)).map (fun r => r.2.1)), r, hltA,
        hsel, ?_, ?_⟩
      · intro j r' hj hr'
        have h2 := hmin j (by simpa using hj)
        rw [hchiAt _ hltA, hchiAt j hj, tryAlgorithm_ok attempt _ r hsel,
          tryAlgorithm_ok attempt _ r' hr'] at h2
        have h2c : (r.chi2 : WithTop ℚ) ≤ (r'.chi2 : WithTop ℚ) := h2
        exact_mod_cast h2c
      · rw [htry, runAlgs_select C attempt algs false hallF _ hrowEq]
        show ((match getDOF false C.ydata_len r.params.length with
          | Except.error e => Except.error (TBErr.tbconfig e)
          | Except.ok dof => Except.ok
              { params := r.params, params_err := r.fit_errors,
                chidof := if dof ≤ 0 then (⊤ : WithTop ℚ)
                  else (((r.chi2 / (dof : ℚ)) : ℚ) : WithTop ℚ) }) :
            Except TBErr TryFitOut) = Except.ok
          { params := r.params, params_err := r.fit_errors,
            chidof := if ((C.ydata_len : ℤ) - (r.params.length : ℤ)) ≤ 0 then (⊤ : WithTop ℚ)
              else (((r.chi2 / (((C.ydata_len : ℤ) - (r.params.length : ℤ) : ℤ) : ℚ)) : ℚ) :
                WithTop ℚ) }
        rw [hdofok]

/-- C4 (witness). -/
theorem try_fit_failure_isolation_and_selection_witness :
    (try_fit wCfg wAttempt (AlgArg.given ["curve_fit", "TNC"]) none none none =
        Except.error (TBErr.noConverge ((["curve_fit", "TNC"] : List String).zip
          ((["curve_fit", "TNC"] : List String).map (failReason wAttempt)))) ↔
      ∀ a ∈ (["curve_fit", "TNC"] : List String), ∃ e, wAttempt a = Except.error e) ∧
    ((∃ a ∈ (["curve_fit", "TNC"] : List String), ∃ r, wAttempt a = Except.ok r) →
      ∃ i r, i < (["curve_fit", "TNC"] : List String).length ∧
        wAttempt ((["curve_fit", "TNC"] : List String).getD i "") = Except.ok r ∧
        (∀ j r', j < (["curve_fit", "TNC"] : List String).length →
          wAttempt ((["curve_fit", "TNC"] : List String).getD j "") = Except.ok r' →
          r.chi2 ≤ r'.chi2) ∧
        try_fit wCfg wAttempt (AlgArg.given ["curve_fit", "TNC"]) none none none = Except.ok
          { params := r.params, params_err := r.fit_errors,
            chidof := if ((wCfg.ydata_len : ℤ) - (r.params.length : ℤ)) ≤ 0 then (⊤ : WithTop ℚ)
              else (((r.chi2 / (((wCfg.ydata_len : ℤ) - (r.params.length : ℤ) : ℤ) : ℚ)) : ℚ) :
                WithTop ℚ) }) :=
  try_fit_failure_isolation_and_selection wCfg wAttempt ["curve_fit", "TNC"] none (by
    intro a r h
    unfold wAttempt at h
    by_cases ha : a = "curve_fit"
    · rw [if_pos ha] at h
      injection h with h'
      rw [← h']
      simp [wCfg]
    · rw [if_neg ha] at h
      simp at h)

end LatFit
